import Mathlib

/-!
Shallow embedding of the financial-dashboard calculation core
(Money / Percentage value objects, Portfolio and Transaction entities,
PortfolioCalculationService, WatchlistService, ManageWatchlistUseCase
and the in-memory watchlist repository).

JavaScript numbers are modelled as exact rationals (ℚ); the 2-decimal
rounding `Math.round(x * 100) / 100` is modelled by `round2` below
(`Math.round` rounds half toward positive infinity, i.e. `⌊x + 1/2⌋`).
Fallible methods (which `throw` in the source) return `Except String`
carrying the thrown message.  `Date` timestamps are modelled as integers
(epoch milliseconds) and the "is this timestamp today?" test, which reads
the wall clock in the source, is abstracted as a boolean parameter.
-/

namespace FinDash

instance {ε α : Type} [DecidableEq ε] [DecidableEq α] : DecidableEq (Except ε α) := fun a b =>
  match a, b with
  | .error e, .error f => decidable_of_iff (e = f) (by simp)
  | .error _, .ok _ => isFalse (by simp)
  | .ok _, .error _ => isFalse (by simp)
  | .ok x, .ok y => decidable_of_iff (x = y) (by simp)

/-- `Math.round(q * 100) / 100`: rounding to 2 decimal places, half up.
(`Rat.floor` is used so the definition evaluates; it agrees with `⌊·⌋`.) -/
def round2 (q : ℚ) : ℚ := ((q * 100 + 1/2).floor : ℚ) / 100

/-- `q` is a value with at most 2 decimal places (an integer number of cents). -/
def isTwoDecimal (q : ℚ) : Prop := (q * 100).den = 1

instance (q : ℚ) : Decidable (isTwoDecimal q) := by
  unfold isTwoDecimal; infer_instance

/-- `String.prototype.toUpperCase` (ASCII letters, which is all the code uses). -/
def strToUpper (s : String) : String := ⟨s.data.map Char.toUpper⟩

/-! ### Money (src/unnamed/part_001) -/

structure Money where
  amount : ℚ
  currency : String
  deriving DecidableEq, Repr

/-- `new Money(amount, currency)`: rejects negative amounts and currency codes
that are empty or not 3 letters; rounds the amount to 2 decimals and
upper-cases the currency. -/
def Money.make (amount : ℚ) (currency : String := "USD") : Except String Money :=
  if amount < 0 then .error "Money amount cannot be negative"
  else if currency = "" ∨ currency.length ≠ 3 then
    .error "Currency must be a valid 3-letter code"
  else .ok ⟨round2 amount, strToUpper currency⟩

/-- `Money.ensureSameCurrency` (private): throws on currency mismatch. -/
def Money.ensureSameCurrency (m o : Money) : Except String Unit :=
  if m.currency ≠ o.currency then
    .error ("Currency mismatch: " ++ m.currency ++ " vs " ++ o.currency)
  else .ok ()

/-- `Money.add`. -/
def Money.add (m o : Money) : Except String Money := do
  m.ensureSameCurrency o
  Money.make (m.amount + o.amount) m.currency

/-- `Money.subtract`: also rejects results that would be negative. -/
def Money.subtract (m o : Money) : Except String Money := do
  m.ensureSameCurrency o
  let result := m.amount - o.amount
  if result < 0 then .error "Cannot subtract to negative amount"
  else Money.make result m.currency

/-- `Money.multiply`: rejects negative factors. -/
def Money.multiply (m : Money) (factor : ℚ) : Except String Money :=
  if factor < 0 then .error "Cannot multiply by negative factor"
  else Money.make (m.amount * factor) m.currency

/-- `Money.divide`: rejects divisors ≤ 0. -/
def Money.divide (m : Money) (divisor : ℚ) : Except String Money :=
  if divisor ≤ 0 then .error "Cannot divide by zero or negative number"
  else Money.make (m.amount / divisor) m.currency

/-- `Money.isGreaterThan`. -/
def Money.isGreaterThan (m o : Money) : Except String Bool := do
  m.ensureSameCurrency o
  pure (decide (m.amount > o.amount))

/-- `Money.isLessThan`. -/
def Money.isLessThan (m o : Money) : Except String Bool := do
  m.ensureSameCurrency o
  pure (decide (m.amount < o.amount))

/-- `Money.equals`. -/
def Money.equals (m o : Money) : Bool :=
  decide (m.amount = o.amount) && decide (m.currency = o.currency)

/-- `Money.zero()` = `new Money(0, 'USD')`. -/
def Money.zero : Money := ⟨0, "USD"⟩

/-- `Money.fromString(value, currency)`, after `parseFloat` has produced the
numeric value `v` (string parsing itself is not modelled; a `NaN` parse,
which throws, has no rational counterpart). -/
def Money.fromString (v : ℚ) (currency : String := "USD") : Except String Money :=
  Money.make v currency

/-- The invariant every constructed `Money` satisfies: non-negative amount,
at most 2 decimals, 3-letter currency code. -/
def Money.Valid (m : Money) : Prop :=
  0 ≤ m.amount ∧ isTwoDecimal m.amount ∧ m.currency.length = 3

instance (m : Money) : Decidable m.Valid := by
  unfold Money.Valid; infer_instance

/-! ### Percentage (src/unnamed/part_002) -/

structure Percentage where
  value : ℚ
  deriving DecidableEq, Repr

/-- `new Percentage(value)`: rounds to 2 decimal places.  (The source also
rejects non-finite inputs; every rational is finite, so that guard is
vacuous in this model.) -/
def Percentage.ofNum (value : ℚ) : Percentage := ⟨round2 value⟩

/-- `Percentage#decimal` getter. -/
def Percentage.decimal (p : Percentage) : ℚ := p.value / 100

/-- `Percentage.add`. -/
def Percentage.add (p o : Percentage) : Percentage := .ofNum (p.value + o.value)

/-- `Percentage.subtract`. -/
def Percentage.subtract (p o : Percentage) : Percentage := .ofNum (p.value - o.value)

/-- `Percentage.multiply`. -/
def Percentage.multiply (p : Percentage) (factor : ℚ) : Percentage :=
  .ofNum (p.value * factor)

/-- `Percentage.divide`: rejects a zero divisor. -/
def Percentage.divide (p : Percentage) (divisor : ℚ) : Except String Percentage :=
  if divisor = 0 then .error "Cannot divide by zero"
  else .ok (.ofNum (p.value / divisor))

/-- `Percentage.isPositive`. -/
def Percentage.isPositive (p : Percentage) : Bool := decide (p.value > 0)

/-- `Percentage.isNegative`. -/
def Percentage.isNegative (p : Percentage) : Bool := decide (p.value < 0)

/-- `Percentage.abs`. -/
def Percentage.abs (p : Percentage) : Percentage := .ofNum |p.value|

/-- `Percentage.fromDecimal`. -/
def Percentage.fromDecimal (decimal : ℚ) : Percentage := .ofNum (decimal * 100)

/-- `Percentage.fromString`, after `parseFloat` has produced the numeric
value `v` (string parsing is not modelled). -/
def Percentage.fromString (v : ℚ) : Percentage := .ofNum v

/-- `Percentage.zero()`. -/
def Percentage.zero : Percentage := .ofNum 0

/-! ### Portfolio entity (src/shared/domain/entities/Portfolio.ts) -/

/-- `PortfolioData`, with the monetary / percentage string fields replaced by
the numeric values `parseFloat` extracts from them (string parsing is not
modelled). -/
structure PortfolioData where
  id : Int
  userId : Int
  totalValue : ℚ
  dailyPnL : ℚ
  successRate : ℚ
  activePositions : Int
  deriving DecidableEq, Repr

structure Portfolio where
  id : Int
  userId : Int
  totalValue : Money
  dailyPnL : Money
  successRate : Percentage
  activePositions : Int
  deriving DecidableEq, Repr

/-- `new Portfolio(data)`: parses the value objects, then runs
`Portfolio.validate` (id / userId positive, activePositions non-negative,
successRate within [0, 100]). -/
def Portfolio.make (data : PortfolioData) : Except String Portfolio := do
  let totalValue ← Money.fromString data.totalValue
  let dailyPnL ← Money.fromString data.dailyPnL
  let successRate := Percentage.fromString data.successRate
  if data.id ≤ 0 then .error "Portfolio ID must be positive"
  else if data.userId ≤ 0 then .error "User ID must be positive"
  else if data.activePositions < 0 then .error "Active positions cannot be negative"
  else if successRate.value < 0 ∨ successRate.value > 100 then
    .error "Success rate must be between 0 and 100"
  else .ok ⟨data.id, data.userId, totalValue, dailyPnL, successRate, data.activePositions⟩

/-- `Portfolio.getDailyReturnPercentage`. -/
def Portfolio.getDailyReturnPercentage (p : Portfolio) : Except String Percentage :=
  if p.totalValue.amount = 0 then .ok Percentage.zero
  else do
    let previousValue ← p.totalValue.subtract p.dailyPnL
    if previousValue.amount = 0 then pure Percentage.zero
    else pure (Percentage.fromDecimal (p.dailyPnL.amount / previousValue.amount))

/-- `Portfolio.isDiversified`. -/
def Portfolio.isDiversified (p : Portfolio) : Bool := decide (p.activePositions ≥ 5)

inductive PerfStatus
  | excellent
  | good
  | average
  | poor
  deriving DecidableEq, Repr

/-- `Portfolio.getPerformanceStatus`. -/
def Portfolio.getPerformanceStatus (p : Portfolio) : Except String PerfStatus := do
  let dailyReturn ← p.getDailyReturnPercentage
  if dailyReturn.value ≥ 2 ∧ p.successRate.value ≥ 80 then pure .excellent
  else if dailyReturn.value ≥ 1 ∧ p.successRate.value ≥ 70 then pure .good
  else if dailyReturn.value ≥ 0 ∧ p.successRate.value ≥ 60 then pure .average
  else pure .poor

/-- The threshold cascade exactly as the spec words it (the spec-side
definition for claim C1, to be compared with `getPerformanceStatus`). -/
def specPerformanceCascade (dailyReturn successRate : ℚ) : PerfStatus :=
  if dailyReturn ≥ 2 ∧ successRate ≥ 80 then .excellent
  else if dailyReturn ≥ 1 ∧ successRate ≥ 70 then .good
  else if dailyReturn ≥ 0 ∧ successRate ≥ 60 then .average
  else .poor

/-! ### Transaction entity (src/shared/domain/entities/Transaction.ts) -/

inductive TransactionType
  | buy
  | sell
  | dividend
  deriving DecidableEq, Repr

structure Transaction where
  id : Int
  userId : Int
  type : TransactionType
  symbol : String
  amount : Money
  shares : Option ℚ
  timestamp : Int
  deriving DecidableEq, Repr

def Transaction.isBuy (t : Transaction) : Bool := t.type = .buy

def Transaction.isSell (t : Transaction) : Bool := t.type = .sell

def Transaction.isDividend (t : Transaction) : Bool := t.type = .dividend

/-- `Transaction.getPricePerShare`: `null` when shares are missing or zero,
otherwise `amount.divide(Math.abs(shares))`. -/
def Transaction.getPricePerShare (t : Transaction) : Except String (Option Money) :=
  match t.shares with
  | none => .ok none
  | some s => if s = 0 then .ok none else (t.amount.divide |s|).map some

/-- The `shares` field is present and non-zero (JS truthiness of
`transaction.shares`, as used by the service and `Transaction.validate`). -/
def sharesOk (sh : Option ℚ) : Bool :=
  match sh with
  | none => false
  | some s => decide (s ≠ 0)

/-- What the `Transaction` constructor guarantees for every transaction it
produces: the amount is a valid `Money` in `'USD'` (it is built with
`Money.fromString(..., 'USD')`), and buy/sell transactions carry non-null,
non-zero shares (`Transaction.validate`). -/
def Transaction.WF (t : Transaction) : Prop :=
  t.amount.Valid ∧ t.amount.currency = "USD" ∧
    (t.type ≠ .dividend → sharesOk t.shares = true)

instance (t : Transaction) : Decidable t.WF := by
  unfold Transaction.WF; infer_instance

/-! ### PortfolioCalculationService
(src/shared/domain/services/PortfolioCalculationService.ts)

The JS `Map<string, number>` of positions is modelled as an association
list in insertion order (`Map.set` updates in place or appends); the
`Map<string, Money>` of current prices as a lookup function. -/

def assocGet {α β : Type} [DecidableEq α] (l : List (α × β)) (k : α) : Option β :=
  match l.find? (fun e => decide (e.1 = k)) with
  | some e => some e.2
  | none => none

def assocSet {α β : Type} [DecidableEq α] : List (α × β) → α → β → List (α × β)
  | [], k, v => [(k, v)]
  | (k', v') :: rest, k, v =>
    if k' = k then (k, v) :: rest else (k', v') :: assocSet rest k v

structure PortfolioMetrics where
  totalValue : Money
  dailyPnL : Money
  totalPnL : Money
  successRate : Percentage
  activePositions : Nat
  totalInvested : Money
  deriving DecidableEq, Repr

/-- `positions.get(symbol) || 0`. -/
def getPosition (l : List (String × ℚ)) (sym : String) : ℚ :=
  match assocGet l sym with
  | some v => v
  | none => 0

/-- The loop body of `calculatePositions`. -/
def calculatePositionsAux (acc : List (String × ℚ)) : List Transaction → List (String × ℚ)
  | [] => acc
  | t :: rest =>
    let currentShares := getPosition acc t.symbol
    let acc' :=
      match t.shares with
      | some s =>
        if t.isBuy = true ∧ s ≠ 0 then assocSet acc t.symbol (currentShares + s)
        else if t.isSell = true ∧ s ≠ 0 then assocSet acc t.symbol (currentShares - |s|)
        else acc
      | none => acc
    calculatePositionsAux acc' rest

/-- `calculatePositions` (private). -/
def calculatePositions (transactions : List Transaction) : List (String × ℚ) :=
  calculatePositionsAux [] transactions

/-- The `for (const [symbol, shares] of positions)` loop accumulating
`totalValue`. -/
def computeTotalValue (currentStockPrices : String → Option Money) :
    List (String × ℚ) → Money → Except String Money
  | [], total => .ok total
  | (sym, shares) :: rest, total =>
    match currentStockPrices sym with
    | some currentPrice =>
      if shares ≠ 0 then do
        let positionValue ← currentPrice.multiply |shares|
        let total' ← total.add positionValue
        computeTotalValue currentStockPrices rest total'
      else computeTotalValue currentStockPrices rest total
    | none => computeTotalValue currentStockPrices rest total

/-- The loop accumulating `totalInvested` over the buy transactions. -/
def computeTotalInvested : List Transaction → Money → Except String Money
  | [], total => .ok total
  | t :: rest, total => do
    let total' ← total.add t.amount
    computeTotalInvested rest total'

/-- `findMatchingBuyTransaction` (private): first buy transaction with the
same symbol and an earlier timestamp, in list order. -/
def findMatchingBuyTransaction (sellTransaction : Transaction)
    (buyTransactions : List Transaction) : Option Transaction :=
  (buyTransactions.filter (fun t => decide (t.symbol = sellTransaction.symbol))).find?
    (fun t => decide (t.timestamp < sellTransaction.timestamp))

/-- The `for (const sellTx of sellTransactions)` loop counting
`successfulTrades`. -/
def countSuccessfulTrades (buyTransactions : List Transaction) (acc : Nat) :
    List Transaction → Except String Nat
  | [] => .ok acc
  | sellTx :: rest => do
    let inc ←
      match findMatchingBuyTransaction sellTx buyTransactions with
      | some buyTx => do
        let buyPrice ← buyTx.getPricePerShare
        let sellPrice ← sellTx.getPricePerShare
        match buyPrice, sellPrice with
        | some bp, some sp => do
          let g ← sp.isGreaterThan bp
          pure (if g then 1 else 0)
        | _, _ => pure 0
      | none => pure (0 : Nat)
    countSuccessfulTrades buyTransactions (acc + inc) rest

/-- The loop body of `calculateDailyPnL`. -/
def dailyPnLFold (acc : Money) : List Transaction → Except String Money
  | [] => .ok acc
  | t :: rest => do
    let acc' ←
      if t.isBuy then acc.subtract t.amount
      else if t.isSell then acc.add t.amount
      else if t.isDividend then acc.add t.amount
      else pure acc
    dailyPnLFold acc' rest

/-- `calculateDailyPnL` (private).  `isToday` abstracts the wall-clock test
`t.timestamp.toDateString() === today.toDateString()`; the price map is
taken but unused, as in the source. -/
def calculateDailyPnL (isToday : Int → Bool) (transactions : List Transaction)
    (_currentStockPrices : String → Option Money) : Except String Money :=
  dailyPnLFold Money.zero (transactions.filter (fun t => isToday t.timestamp))

/-- `PortfolioCalculationService.calculatePortfolioMetrics`. -/
def calculatePortfolioMetrics (isToday : Int → Bool) (transactions : List Transaction)
    (currentStockPrices : String → Option Money) : Except String PortfolioMetrics := do
  let positions := calculatePositions transactions
  let totalValue ← computeTotalValue currentStockPrices positions Money.zero
  let buyTransactions := transactions.filter (fun t => t.isBuy)
  let sellTransactions := transactions.filter (fun t => t.isSell)
  let totalInvested ← computeTotalInvested buyTransactions Money.zero
  let successfulTrades ← countSuccessfulTrades buyTransactions 0 sellTransactions
  let totalTrades := sellTransactions.length
  let successRate :=
    if totalTrades > 0 then
      Percentage.ofNum (((successfulTrades : ℚ) / (totalTrades : ℚ)) * 100)
    else Percentage.zero
  let totalPnL ← totalValue.subtract totalInvested
  let dailyPnL ← calculateDailyPnL isToday transactions currentStockPrices
  pure ⟨totalValue, dailyPnL, totalPnL, successRate,
    (positions.filter (fun e => decide (e.2 ≠ 0))).length, totalInvested⟩

/-- Spec-side matching rule for claim C3: a sell is matched to the first buy
transaction (in list order) of the same symbol with a strictly earlier
timestamp. -/
def specMatchBuy (sellTx : Transaction) (transactions : List Transaction) :
    Option Transaction :=
  transactions.find?
    (fun t => t.isBuy && decide (t.symbol = sellTx.symbol) &&
      decide (t.timestamp < sellTx.timestamp))

/-- Spec-side "successful sell" predicate for claim C3: the sell's price per
share is strictly greater than that of its matched buy. -/
def specSuccessfulSell (transactions : List Transaction) (sellTx : Transaction) : Bool :=
  match specMatchBuy sellTx transactions with
  | none => false
  | some buyTx =>
    match buyTx.getPricePerShare, sellTx.getPricePerShare with
    | .ok (some bp), .ok (some sp) => decide (bp.amount < sp.amount)
    | _, _ => false

/-! ### WatchlistService (src/unnamed/part_003)

`WatchItem` and `Stock` model the fields of the `WatchlistItem` and `Stock`
entities that the service reads (via getters the entities expose: the
symbol string, the alert flag, the target price as a `Money`, the current
price as a `Money`). -/

structure WatchItem where
  symbol : String
  alertEnabled : Bool
  targetPrice : Option Money
  deriving DecidableEq, Repr

structure Stock where
  symbol : String
  price : Money
  deriving DecidableEq, Repr

inductive AlertType
  | above_target
  | below_target
  deriving DecidableEq, Repr

structure AlertInfo where
  watchlistItem : WatchItem
  currentPrice : Money
  targetPrice : Money
  alertType : AlertType
  deriving DecidableEq, Repr

/-- `findStockBySymbol` (private). -/
def findStockBySymbol (symbol : String) (stocks : List Stock) : Option Stock :=
  stocks.find? (fun stock => decide (stock.symbol = symbol))

/-- `shouldTriggerAlert` (private): tolerance is 2% of the target, bounds are
target ± tolerance, alert outside the bounds (`||` short-circuits). -/
def shouldTriggerAlert (currentPrice targetPrice : Money) : Except String Bool := do
  let tolerance ← targetPrice.multiply (2/100)
  let upperBound ← targetPrice.add tolerance
  let lowerBound ← targetPrice.subtract tolerance
  let hi ← currentPrice.isGreaterThan upperBound
  if hi then pure true else currentPrice.isLessThan lowerBound

/-- `WatchlistService.checkAlerts`. -/
def checkAlerts : List WatchItem → List Stock → Except String (List AlertInfo)
  | [], _ => .ok []
  | item :: rest, currentStocks =>
    if item.alertEnabled = false ∨ item.targetPrice = none then
      checkAlerts rest currentStocks
    else
      match findStockBySymbol item.symbol currentStocks with
      | none => checkAlerts rest currentStocks
      | some stock =>
        match item.targetPrice with
        | none => checkAlerts rest currentStocks
        | some targetPrice => do
          let trig ← shouldTriggerAlert stock.price targetPrice
          if trig then do
            let gt ← stock.price.isGreaterThan targetPrice
            let tail ← checkAlerts rest currentStocks
            pure (⟨item, stock.price, targetPrice,
              if gt then .above_target else .below_target⟩ :: tail)
          else checkAlerts rest currentStocks

/-- Spec-side band for claim C2, read literally: the closed band
target ± 2% of the target (no rounding of the tolerance). -/
def specInsideExactBand (price target : ℚ) : Prop :=
  target - target * (2/100) ≤ price ∧ price ≤ target + target * (2/100)

instance (price target : ℚ) : Decidable (specInsideExactBand price target) := by
  unfold specInsideExactBand; infer_instance

/-! ### ManageWatchlistUseCase and MemoryWatchlistRepository
(src/shared/application/use-cases/ManageWatchlistUseCase.ts,
src/shared/infrastructure/repositories/MemoryWatchlistRepository.ts)

The repository's `Map<number, WatchlistItemData>` and
`Map<number, number[]>` are modelled as association lists in insertion
order.  Dates are epoch-millisecond integers; the target-price string is
replaced by its parsed numeric value.  The DTO mapping keeps the item data
and performs the validations that can throw (`new WatchlistItem(...)`,
`new StockSymbol(...)`, `Money.fromString`); display-formatted strings are
not modelled. -/

structure WatchlistItemData where
  id : Int
  userId : Int
  symbol : String
  addedAt : Int
  notes : String
  targetPrice : Option ℚ
  alertEnabled : Bool
  deriving DecidableEq, Repr

structure RepoState where
  items : List (Int × WatchlistItemData)
  userItems : List (Int × List Int)
  currentId : Int
  deriving DecidableEq, Repr

structure CreateWatchlistItemDto where
  symbol : String
  notes : Option String
  targetPrice : Option ℚ
  alertEnabled : Option Bool
  deriving DecidableEq, Repr

/-- The `for (const itemId of userItemIds)` loop of `getByUserIdAndSymbol`. -/
def findUserItemWithSymbol (items : List (Int × WatchlistItemData)) (symbol : String) :
    List Int → Option WatchlistItemData
  | [] => none
  | itemId :: rest =>
    match assocGet items itemId with
    | some item =>
      if strToUpper item.symbol = strToUpper symbol then some item
      else findUserItemWithSymbol items symbol rest
    | none => findUserItemWithSymbol items symbol rest

/-- `MemoryWatchlistRepository.getByUserIdAndSymbol`. -/
def getByUserIdAndSymbol (st : RepoState) (userId : Int) (symbol : String) :
    Option WatchlistItemData :=
  let userItemIds := (assocGet st.userItems userId).getD []
  findUserItemWithSymbol st.items symbol userItemIds

/-- `MemoryWatchlistRepository.create`. -/
def repoCreate (st : RepoState) (userId : Int) (symbol : String) (notes : String)
    (targetPrice : Option ℚ) (alertEnabled : Bool) (addedAt : Int) :
    WatchlistItemData × RepoState :=
  let newItem : WatchlistItemData :=
    ⟨st.currentId, userId, symbol, addedAt, notes, targetPrice, alertEnabled⟩
  let items' := assocSet st.items newItem.id newItem
  let userItemIds := (assocGet st.userItems userId).getD []
  let userItems' := assocSet st.userItems userId (userItemIds ++ [newItem.id])
  (newItem, ⟨items', userItems', st.currentId + 1⟩)

/-- `new StockSymbol(symbol)`: trim, upper-case, 1-5 letters A-Z. -/
def StockSymbol.make (symbol : String) : Except String String :=
  if symbol = "" then .error "Stock symbol must be a non-empty string"
  else
    let cleanSymbol := strToUpper symbol.trim
    if cleanSymbol.length < 1 ∨ cleanSymbol.length > 5 then
      .error "Stock symbol must be between 1 and 5 characters"
    else if ¬ cleanSymbol.data.all (fun c => decide ('A' ≤ c) && decide (c ≤ 'Z')) then
      .error "Stock symbol must contain only letters"
    else .ok cleanSymbol

/-- `new WatchlistItem(data)`: the `validate()` run by the constructor. -/
def WatchlistItem.validate (d : WatchlistItemData) : Except String Unit :=
  if d.id ≤ 0 then .error "Watchlist item ID must be positive"
  else if d.userId ≤ 0 then .error "User ID must be positive"
  else if d.symbol = "" ∨ d.symbol.trim.length = 0 then .error "Stock symbol is required"
  else .ok ()

/-- `mapItemToDto` (private): runs the entity getters that can throw
(`item.symbol` builds a `StockSymbol`, `item.targetPrice` builds a `Money`);
the display formatting itself is not modelled. -/
def mapItemChecks (d : WatchlistItemData) : Except String WatchlistItemData := do
  let _ ← StockSymbol.make d.symbol
  match d.targetPrice with
  | some v => do
    let _ ← Money.fromString v
    pure d
  | none => pure d

/-- `ManageWatchlistUseCase.addToWatchlist`.  `now` abstracts `new Date()`.
Returns the result (with the `catch` block's message wrapping) together
with the repository state afterwards. -/
def addToWatchlist (now : Int) (st : RepoState) (userId : Int)
    (dto : CreateWatchlistItemDto) : Except String WatchlistItemData × RepoState :=
  match getByUserIdAndSymbol st userId dto.symbol with
  | some _ => (.error ("Failed to add to watchlist: " ++ "Stock already in watchlist"), st)
  | none =>
    let (newItemData, st') := repoCreate st userId (strToUpper dto.symbol)
      (dto.notes.getD "") dto.targetPrice (dto.alertEnabled.getD false) now
    match (do
        let _ ← WatchlistItem.validate newItemData
        mapItemChecks newItemData : Except String WatchlistItemData) with
    | .ok d => (.ok d, st')
    | .error e => (.error ("Failed to add to watchlist: " ++ e), st')

/-! ## Theorems -/

/-! ### Facts about rounding and the `Money` invariant -/

theorem round2_eq_intFloor (q : ℚ) : round2 q = (⌊q * 100 + 1/2⌋ : ℚ) / 100 := by
  rw [round2, Rat.floor_def', Rat.floor_def]

theorem round2_twoDecimal (q : ℚ) : isTwoDecimal (round2 q) := by
  rw [round2_eq_intFloor]; unfold isTwoDecimal
  rw [div_mul_cancel₀]
  · exact Rat.den_intCast _
  · norm_num

theorem round2_nonneg {q : ℚ} (h : 0 ≤ q) : 0 ≤ round2 q := by
  rw [round2_eq_intFloor]
  apply div_nonneg _ (by norm_num)
  have : (0 : ℤ) ≤ ⌊q * 100 + 1/2⌋ := by
    apply Int.le_floor.mpr
    push_cast
    nlinarith
  exact_mod_cast this

theorem round2_eq_self {q : ℚ} (h : isTwoDecimal q) : round2 q = q := by
  unfold isTwoDecimal at h
  have hq : ((q * 100).num : ℚ) = q * 100 := Rat.coe_int_num_of_den_eq_one h
  rw [round2_eq_intFloor]
  have : ⌊q * 100 + 1/2⌋ = (q * 100).num := by
    rw [Int.floor_eq_iff]
    constructor
    · rw [hq]; linarith
    · rw [hq]; linarith
  rw [this, hq]
  field_simp

theorem round2_mono {p q : ℚ} (h : p ≤ q) : round2 p ≤ round2 q := by
  rw [round2_eq_intFloor, round2_eq_intFloor]
  have hf : ⌊p * 100 + 1/2⌋ ≤ ⌊q * 100 + 1/2⌋ := Int.floor_le_floor (by linarith)
  have hq : ((⌊p * 100 + 1/2⌋ : ℤ) : ℚ) ≤ ((⌊q * 100 + 1/2⌋ : ℤ) : ℚ) := by exact_mod_cast hf
  linarith

theorem isTwoDecimal_intCast (n : ℤ) : isTwoDecimal (n : ℚ) := by
  unfold isTwoDecimal
  have h : ((n : ℚ) * 100) = ((n * 100 : ℤ) : ℚ) := by push_cast; ring
  rw [h, Rat.den_intCast]

theorem isTwoDecimal_add {p q : ℚ} (hp : isTwoDecimal p) (hq : isTwoDecimal q) :
    isTwoDecimal (p + q) := by
  unfold isTwoDecimal at *
  have hp' := Rat.coe_int_num_of_den_eq_one hp
  have hq' := Rat.coe_int_num_of_den_eq_one hq
  have h : (p + q) * 100 = (((p * 100).num + (q * 100).num : ℤ) : ℚ) := by
    push_cast [hp', hq']; ring
  rw [h, Rat.den_intCast]

theorem isTwoDecimal_neg {p : ℚ} (hp : isTwoDecimal p) : isTwoDecimal (-p) := by
  unfold isTwoDecimal at *
  have hp' := Rat.coe_int_num_of_den_eq_one hp
  have h : (-p) * 100 = ((-(p * 100).num : ℤ) : ℚ) := by push_cast [hp']; ring
  rw [h, Rat.den_intCast]

theorem isTwoDecimal_sub {p q : ℚ} (hp : isTwoDecimal p) (hq : isTwoDecimal q) :
    isTwoDecimal (p - q) := by
  have h := isTwoDecimal_add hp (isTwoDecimal_neg hq)
  simpa [sub_eq_add_neg] using h

theorem strToUpper_length (s : String) : (strToUpper s).length = s.length := by
  cases s with
  | mk data =>
    show (data.map Char.toUpper).length = data.length
    exact List.length_map _ _

/-- What a successful `new Money(...)` returns. -/
theorem Money.make_ok_iff {a : ℚ} {c : String} {m : Money} :
    Money.make a c = .ok m ↔
      (0 ≤ a ∧ c ≠ "" ∧ c.length = 3 ∧ m = ⟨round2 a, strToUpper c⟩) := by
  unfold Money.make
  split
  · next h => simp only [reduceCtorEq, false_iff]; intro hc; linarith [hc.1]
  · next h =>
    split
    · next h2 => simp only [reduceCtorEq, false_iff]; intro hc; tauto
    · next h2 =>
      push_neg at h h2
      simp only [Except.ok.injEq]
      constructor
      · intro he; exact ⟨h, h2.1, h2.2, he.symm⟩
      · intro hc; exact hc.2.2.2.symm

theorem Money.make_valid {a : ℚ} {c : String} {m : Money}
    (h : Money.make a c = .ok m) : m.Valid := by
  rw [Money.make_ok_iff] at h
  obtain ⟨ha, -, hc3, hm⟩ := h
  subst hm
  exact ⟨round2_nonneg ha, round2_twoDecimal a, by rw [strToUpper_length]; exact hc3⟩

theorem Money.make_currency {a : ℚ} {c : String} {m : Money}
    (h : Money.make a c = .ok m) : m.currency = strToUpper c := by
  rw [Money.make_ok_iff] at h
  rw [h.2.2.2]

/-- On valid data, `new Money(...)` is the identity embedding. -/
theorem Money.make_eq_self {m : Money} (hv : m.Valid)
    (hu : strToUpper m.currency = m.currency) :
    Money.make m.amount m.currency = .ok m := by
  obtain ⟨h0, h2, h3⟩ := hv
  rw [Money.make_ok_iff]
  refine ⟨h0, ?_, h3, ?_⟩
  · intro he; rw [he] at h3; simp [String.length] at h3
  · cases m; simp_all [round2_eq_self h2]

/-- `Money.add` on two valid moneys of the same (uppercase-stable) currency. -/
theorem Money.add_eval {m o : Money} (hm : m.Valid) (ho : o.Valid)
    (hc : m.currency = o.currency) (hu : strToUpper m.currency = m.currency) :
    m.add o = .ok ⟨m.amount + o.amount, m.currency⟩ := by
  obtain ⟨hm0, hm2, hm3⟩ := hm
  obtain ⟨ho0, ho2, -⟩ := ho
  unfold Money.add Money.ensureSameCurrency
  rw [if_neg (by simp [hc])]
  show Money.make (m.amount + o.amount) m.currency = _
  rw [Money.make_ok_iff]
  refine ⟨by linarith, ?_, hm3, ?_⟩
  · intro he; rw [he] at hm3; simp [String.length] at hm3
  · rw [round2_eq_self (isTwoDecimal_add hm2 ho2), hu]

theorem exceptBind_ok {ε α β : Type} (a : α) (f : α → Except ε β) :
    (Except.ok a >>= f : Except ε β) = f a := rfl

theorem exceptBind_error {ε α β : Type} (e : ε) (f : α → Except ε β) :
    (Except.error e >>= f : Except ε β) = .error e := rfl

theorem exceptPure {ε α : Type} (a : α) : (pure a : Except ε α) = .ok a := rfl

/-- Evaluation helper: `Money.fromString` on a non-negative 2-decimal value
(the common `'USD'` default). -/
theorem Money.fromString_eval {v : ℚ} (h0 : 0 ≤ v) (h2 : isTwoDecimal v) :
    Money.fromString v = .ok ⟨v, "USD"⟩ := by
  unfold Money.fromString Money.make
  rw [if_neg (not_lt.mpr h0), if_neg (by decide)]
  rw [round2_eq_self h2]
  rfl

/-- `Money.multiply` by a non-negative factor on a valid money. -/
theorem Money.multiply_eval {m : Money} (hm : m.Valid) {f : ℚ} (hf : 0 ≤ f)
    (hu : strToUpper m.currency = m.currency) :
    m.multiply f = .ok ⟨round2 (m.amount * f), m.currency⟩ := by
  obtain ⟨hm0, -, hm3⟩ := hm
  unfold Money.multiply
  rw [if_neg (not_lt.mpr hf)]
  rw [Money.make_ok_iff]
  refine ⟨by positivity, ?_, hm3, by rw [hu]⟩
  intro he; rw [he] at hm3; simp [String.length] at hm3

/-- `Money.subtract` on two valid moneys of the same (uppercase-stable)
currency, when the result stays non-negative. -/
theorem Money.subtract_eval {m o : Money} (hm : m.Valid) (ho : o.Valid)
    (hc : m.currency = o.currency) (hu : strToUpper m.currency = m.currency)
    (hge : o.amount ≤ m.amount) :
    m.subtract o = .ok ⟨m.amount - o.amount, m.currency⟩ := by
  obtain ⟨hm0, hm2, hm3⟩ := hm
  obtain ⟨ho0, ho2, -⟩ := ho
  unfold Money.subtract Money.ensureSameCurrency
  rw [if_neg (by simp [hc])]
  show (if m.amount - o.amount < 0 then _ else Money.make (m.amount - o.amount) m.currency) = _
  rw [if_neg (by linarith)]
  rw [Money.make_ok_iff]
  refine ⟨by linarith, ?_, hm3, ?_⟩
  · intro he; rw [he] at hm3; simp [String.length] at hm3
  · rw [round2_eq_self (isTwoDecimal_sub hm2 ho2), hu]

/-- `shouldTriggerAlert` on valid USD prices: true exactly when the current
price is outside target ± round2(2% of target). -/
theorem shouldTriggerAlert_eval {cur tgt : Money} (hc : cur.Valid) (ht : tgt.Valid)
    (hcc : cur.currency = "USD") (htc : tgt.currency = "USD") :
    shouldTriggerAlert cur tgt =
      .ok (decide (tgt.amount + round2 (tgt.amount * (2/100)) < cur.amount) ||
           decide (cur.amount < tgt.amount - round2 (tgt.amount * (2/100)))) := by
  obtain ⟨ht0, ht2, ht3⟩ := ht
  obtain ⟨hc0, hc2, hc3⟩ := hc
  have hu : strToUpper tgt.currency = tgt.currency := by rw [htc]; rfl
  have htol0 : (0:ℚ) ≤ round2 (tgt.amount * (2/100)) := round2_nonneg (by positivity)
  have htolle : round2 (tgt.amount * (2/100)) ≤ tgt.amount := by
    calc round2 (tgt.amount * (2/100)) ≤ round2 tgt.amount := round2_mono (by nlinarith)
    _ = tgt.amount := round2_eq_self ht2
  have hmul := Money.multiply_eval (f := 2/100) ⟨ht0, ht2, ht3⟩ (by norm_num) hu
  have htolv : (⟨round2 (tgt.amount * (2/100)), tgt.currency⟩ : Money).Valid :=
    ⟨htol0, round2_twoDecimal _, ht3⟩
  have hadd := Money.add_eval ⟨ht0, ht2, ht3⟩ htolv rfl hu
  have hsub := Money.subtract_eval ⟨ht0, ht2, ht3⟩ htolv rfl hu htolle
  unfold shouldTriggerAlert
  rw [hmul, exceptBind_ok, hadd, exceptBind_ok, hsub, exceptBind_ok]
  unfold Money.isGreaterThan Money.isLessThan Money.ensureSameCurrency
  rw [if_neg (by simp [hcc, htc]), exceptBind_ok]
  dsimp only
  rw [exceptPure, exceptBind_ok]
  by_cases hhi : tgt.amount + round2 (tgt.amount * (2/100)) < cur.amount
  · rw [if_pos (decide_eq_true (show cur.amount > _ from hhi))]
    simp [exceptPure, decide_eq_true (show cur.amount > tgt.amount + round2 (tgt.amount * (2/100)) from hhi)]
  · rw [if_neg (by simpa only [decide_eq_true_eq] using hhi)]
    rw [exceptBind_ok, exceptPure]
    simp [decide_eq_false hhi]

/-- `checkAlerts` contribution of one watch item (alert enabled, target
present, stock found, all moneys USD): an alert is emitted for the item
exactly when the price is outside target ± round2(2% of target), typed
by direct comparison with the target. -/
theorem checkAlerts_cons_eval (item : WatchItem) (rest : List WatchItem)
    (stocks : List Stock) (t : Money) (stock : Stock) (tailAlerts : List AlertInfo)
    (henabled : item.alertEnabled = true) (htp : item.targetPrice = some t)
    (hfind : findStockBySymbol item.symbol stocks = some stock)
    (ht : t.Valid) (htc : t.currency = "USD")
    (hp : stock.price.Valid) (hpc : stock.price.currency = "USD")
    (htail : checkAlerts rest stocks = .ok tailAlerts) :
    checkAlerts (item :: rest) stocks =
      .ok ((if t.amount + round2 (t.amount * (2/100)) < stock.price.amount ∨
              stock.price.amount < t.amount - round2 (t.amount * (2/100))
            then [⟨item, stock.price, t,
                   if t.amount < stock.price.amount then .above_target
                   else .below_target⟩]
            else []) ++ tailAlerts) := by
  have htrig := shouldTriggerAlert_eval hp ht hpc htc
  have hgt : stock.price.isGreaterThan t = .ok (decide (t.amount < stock.price.amount)) := by
    unfold Money.isGreaterThan Money.ensureSameCurrency
    rw [if_neg (by simp [hpc, htc]), exceptBind_ok]
    rfl
  simp only [checkAlerts, henabled, htp, hfind]
  rw [if_neg (by simp)]
  rw [htrig, exceptBind_ok]
  by_cases hout : t.amount + round2 (t.amount * (2/100)) < stock.price.amount ∨
      stock.price.amount < t.amount - round2 (t.amount * (2/100))
  · have hb : (decide (t.amount + round2 (t.amount * (2/100)) < stock.price.amount) ||
        decide (stock.price.amount < t.amount - round2 (t.amount * (2/100)))) = true := by
      rcases hout with h | h <;> simp [h]
    rw [hb, if_pos rfl, hgt, exceptBind_ok, htail, exceptBind_ok, if_pos hout]
    by_cases habove : t.amount < stock.price.amount
    · rw [if_pos habove, if_pos (decide_eq_true habove), exceptPure]
      simp
    · rw [if_neg habove, if_neg (by simpa only [decide_eq_true_eq] using habove), exceptPure]
      simp
  · have hb : (decide (t.amount + round2 (t.amount * (2/100)) < stock.price.amount) ||
        decide (stock.price.amount < t.amount - round2 (t.amount * (2/100)))) = false := by
      push_neg at hout
      simp [not_lt.mpr hout.1, not_lt.mpr hout.2]
    rw [hb, if_neg (by simp), htail, if_neg hout]
    simp

/-! ### Facts about the portfolio calculation service -/

theorem find?_filter {α : Type} (l : List α) (p q : α → Bool) :
    (l.filter p).find? q = l.find? (fun a => p a && q a) := by
  induction l with
  | nil => rfl
  | cons a l ih =>
    by_cases hp : p a
    · by_cases hq : q a
      · simp [List.filter_cons, hp, List.find?_cons_of_pos, hq]
      · simp only [List.filter_cons, if_pos hp]
        rw [List.find?_cons_of_neg _ (by simp [hq]),
          List.find?_cons_of_neg _ (by simp [hp, hq]), ih]
    · simp only [List.filter_cons, if_neg hp]
      rw [List.find?_cons_of_neg _ (by simp [hp]), ih]

/-- The code's filter-then-find matching equals the spec's single pass over
all transactions. -/
theorem findMatchingBuyTransaction_eq_spec (s : Transaction) (transactions : List Transaction) :
    findMatchingBuyTransaction s (transactions.filter (fun t => t.isBuy)) =
      specMatchBuy s transactions := by
  unfold findMatchingBuyTransaction specMatchBuy
  rw [List.filter_filter, find?_filter]
  congr 1
  funext t
  by_cases hb : t.isBuy <;> by_cases hs : t.symbol = s.symbol <;>
    by_cases hts : t.timestamp < s.timestamp <;> simp [hb, hs, hts]

/-- `getPricePerShare` never throws on a well-formed transaction, and any
price it yields is in USD. -/
theorem Transaction.getPricePerShare_ok {t : Transaction} (hwf : t.WF) :
    ∃ or, t.getPricePerShare = .ok or ∧ ∀ m : Money, or = some m → m.currency = "USD" := by
  obtain ⟨⟨h0, h2, h3⟩, hc, -⟩ := hwf
  unfold Transaction.getPricePerShare
  cases hs : t.shares with
  | none => exact ⟨none, rfl, by simp⟩
  | some s =>
    dsimp only
    by_cases hz : s = 0
    · rw [if_pos hz]
      exact ⟨none, rfl, by simp⟩
    · rw [if_neg hz]
      have hdiv : t.amount.divide |s| = .ok ⟨round2 (t.amount.amount / |s|), "USD"⟩ := by
        unfold Money.divide
        rw [if_neg (not_le.mpr (abs_pos.mpr hz))]
        rw [Money.make_ok_iff]
        refine ⟨by positivity, ?_, ?_, ?_⟩
        · rw [hc]; decide
        · rw [hc]; decide
        · rw [hc]; rfl
      rw [hdiv]
      exact ⟨some ⟨round2 (t.amount.amount / |s|), "USD"⟩, rfl, fun m hm => by
        injection hm with hm'; rw [← hm']⟩

/-- The `successfulTrades` loop, run against the buy transactions of a
well-formed list, counts exactly the spec's successful sells. -/
theorem countSuccessfulTrades_eval (transactions : List Transaction)
    (hwf : ∀ t ∈ transactions, t.WF) :
    ∀ (sells : List Transaction), (∀ t ∈ sells, t.WF) → ∀ acc : Nat,
    countSuccessfulTrades (transactions.filter (fun t => t.isBuy)) acc sells =
      .ok (acc + sells.countP (specSuccessfulSell transactions)) := by
  intro sells
  induction sells with
  | nil => intro _ acc; simp [countSuccessfulTrades]
  | cons s rest ih =>
    intro hswf acc
    have hswf' : ∀ t ∈ rest, t.WF := fun t ht => hswf t (List.mem_cons_of_mem _ ht)
    unfold countSuccessfulTrades
    rw [findMatchingBuyTransaction_eq_spec]
    cases hmatch : specMatchBuy s transactions with
    | none =>
      dsimp only
      rw [exceptPure, exceptBind_ok, ih hswf']
      have hspec : specSuccessfulSell transactions s = false := by
        unfold specSuccessfulSell; rw [hmatch]
      rw [List.countP_cons_of_neg _ _ (by simp [hspec])]
      simp
    | some b =>
      have hbmem : b ∈ transactions := by
        have hmatch' := hmatch
        unfold specMatchBuy at hmatch'
        exact List.mem_of_find?_eq_some hmatch'
      have hbwf : b.WF := hwf b hbmem
      obtain ⟨obp, hobp, hobpc⟩ := Transaction.getPricePerShare_ok hbwf
      obtain ⟨osp, hosp, hospc⟩ :=
        Transaction.getPricePerShare_ok (hswf s (List.mem_cons_self s rest))
      rcases obp with - | bp <;> rcases osp with - | sp
      · have hspec : specSuccessfulSell transactions s = false := by
          unfold specSuccessfulSell
          rw [hmatch]
          dsimp only
          rw [hobp, hosp]
        dsimp only
        rw [hobp, exceptBind_ok, hosp, exceptBind_ok]
        dsimp only
        rw [exceptPure, exceptBind_ok, ih hswf']
        rw [List.countP_cons_of_neg _ _ (by simp [hspec])]
        simp
      · have hspec : specSuccessfulSell transactions s = false := by
          unfold specSuccessfulSell
          rw [hmatch]
          dsimp only
          rw [hobp, hosp]
        dsimp only
        rw [hobp, exceptBind_ok, hosp, exceptBind_ok]
        dsimp only
        rw [exceptPure, exceptBind_ok, ih hswf']
        rw [List.countP_cons_of_neg _ _ (by simp [hspec])]
        simp
      · have hspec : specSuccessfulSell transactions s = false := by
          unfold specSuccessfulSell
          rw [hmatch]
          dsimp only
          rw [hobp, hosp]
        dsimp only
        rw [hobp, exceptBind_ok, hosp, exceptBind_ok]
        dsimp only
        rw [exceptPure, exceptBind_ok, ih hswf']
        rw [List.countP_cons_of_neg _ _ (by simp [hspec])]
        simp
      · have hspec : specSuccessfulSell transactions s = decide (bp.amount < sp.amount) := by
          unfold specSuccessfulSell
          rw [hmatch]
          dsimp only
          rw [hobp, hosp]
        have hgt : sp.isGreaterThan bp = .ok (decide (bp.amount < sp.amount)) := by
          unfold Money.isGreaterThan Money.ensureSameCurrency
          rw [if_neg (by simp [hospc sp rfl, hobpc bp rfl]), exceptBind_ok]
          rfl
        dsimp only
        rw [hobp, exceptBind_ok, hosp, exceptBind_ok]
        dsimp only
        rw [hgt, exceptBind_ok, exceptPure, exceptBind_ok, ih hswf']
        by_cases hlt : bp.amount < sp.amount
        · rw [if_pos (decide_eq_true hlt)]
          rw [List.countP_cons_of_pos _ _ (by rw [hspec]; simpa using hlt)]
          exact congrArg Except.ok (by omega)
        · rw [if_neg (by simpa only [decide_eq_true_eq] using hlt)]
          rw [List.countP_cons_of_neg _ _ (by rw [hspec]; simpa using hlt)]
          simp

/-- The `totalValue` loop, run from a valid USD accumulator, yields a valid
USD money whenever it succeeds. -/
theorem computeTotalValue_ok {prices : String → Option Money} :
    ∀ (positions : List (String × ℚ)) (acc tv : Money), acc.Valid → acc.currency = "USD" →
    computeTotalValue prices positions acc = .ok tv → tv.Valid ∧ tv.currency = "USD" := by
  intro positions
  induction positions with
  | nil =>
    intro acc tv hv hc h
    injection h with h'
    subst h'
    exact ⟨hv, hc⟩
  | cons e rest ih =>
    intro acc tv hv hc h
    obtain ⟨sym, shares⟩ := e
    unfold computeTotalValue at h
    cases hp : prices sym with
    | none =>
      rw [hp] at h
      exact ih _ _ hv hc h
    | some price =>
      rw [hp] at h
      dsimp only at h
      by_cases hsh : shares ≠ 0
      · rw [if_pos hsh] at h
        cases hmul : price.multiply |shares| with
        | error e => rw [hmul, exceptBind_error] at h; cases h
        | ok pv =>
          rw [hmul, exceptBind_ok] at h
          cases hadd : acc.add pv with
          | error e => rw [hadd, exceptBind_error] at h; cases h
          | ok acc' =>
            rw [hadd, exceptBind_ok] at h
            have hacc' : acc'.Valid ∧ acc'.currency = "USD" := by
              unfold Money.add Money.ensureSameCurrency at hadd
              by_cases hcc : acc.currency ≠ pv.currency
              · rw [if_pos hcc, exceptBind_error] at hadd; cases hadd
              · rw [if_neg hcc, exceptBind_ok] at hadd
                exact ⟨Money.make_valid hadd, by rw [Money.make_currency hadd, hc]; rfl⟩
            exact ih _ _ hacc'.1 hacc'.2 h
      · rw [if_neg hsh] at h
        exact ih _ _ hv hc h

/-- The `totalInvested` loop, run from a valid USD accumulator, yields a
valid USD money whenever it succeeds. -/
theorem computeTotalInvested_ok :
    ∀ (l : List Transaction) (acc ti : Money), acc.Valid → acc.currency = "USD" →
    computeTotalInvested l acc = .ok ti → ti.Valid ∧ ti.currency = "USD" := by
  intro l
  induction l with
  | nil =>
    intro acc ti hv hc h
    injection h with h'
    subst h'
    exact ⟨hv, hc⟩
  | cons t rest ih =>
    intro acc ti hv hc h
    unfold computeTotalInvested at h
    cases hadd : acc.add t.amount with
    | error e => rw [hadd, exceptBind_error] at h; cases h
    | ok acc' =>
      rw [hadd, exceptBind_ok] at h
      have hacc' : acc'.Valid ∧ acc'.currency = "USD" := by
        unfold Money.add Money.ensureSameCurrency at hadd
        by_cases hcc : acc.currency ≠ t.amount.currency
        · rw [if_pos hcc, exceptBind_error] at hadd; cases hadd
        · rw [if_neg hcc, exceptBind_ok] at hadd
          exact ⟨Money.make_valid hadd, by rw [Money.make_currency hadd, hc]; rfl⟩
      exact ih _ _ hacc'.1 hacc'.2 h

/-- The `dailyPnL` loop on well-formed transactions either throws
"Cannot subtract to negative amount" or returns the exact running total
(sells and dividends added, buys subtracted) — which is then non-negative. -/
theorem dailyPnLFold_spec :
    ∀ (l : List Transaction) (acc : Money), (∀ t ∈ l, t.WF) →
    acc.Valid → acc.currency = "USD" →
    dailyPnLFold acc l = .error "Cannot subtract to negative amount" ∨
    ∃ r, dailyPnLFold acc l = .ok r ∧ 0 ≤ r.amount ∧
      r.amount = acc.amount
        + ((l.filter (fun t => t.isSell || t.isDividend)).map (fun t => t.amount.amount)).sum
        - ((l.filter (fun t => t.isBuy)).map (fun t => t.amount.amount)).sum := by
  intro l
  induction l with
  | nil =>
    intro acc _ hv _
    right
    exact ⟨acc, rfl, hv.1, by simp⟩
  | cons t rest ih =>
    intro acc hwf hv hc
    obtain ⟨htv, htc, -⟩ := hwf t (List.mem_cons_self t rest)
    have hwf' : ∀ u ∈ rest, u.WF := fun u hu => hwf u (List.mem_cons_of_mem _ hu)
    have hfb : (t :: rest).filter (fun u => u.isBuy) =
        (if t.isBuy then [t] else []) ++ rest.filter (fun u => u.isBuy) := by
      by_cases hb : t.isBuy <;> simp [List.filter_cons, hb]
    have hfs : (t :: rest).filter (fun u => u.isSell || u.isDividend) =
        (if t.isSell || t.isDividend then [t] else []) ++
          rest.filter (fun u => u.isSell || u.isDividend) := by
      by_cases hs : (t.isSell || t.isDividend : Bool) <;> simp [List.filter_cons, hs]
    unfold dailyPnLFold
    cases htype : t.type with
    | buy =>
      have hb : t.isBuy = true := by simp [Transaction.isBuy, htype]
      rw [hb, if_pos rfl]
      by_cases hlt : acc.amount < t.amount.amount
      · left
        have hsub : acc.subtract t.amount = .error "Cannot subtract to negative amount" := by
          unfold Money.subtract Money.ensureSameCurrency
          rw [if_neg (by simp [hc, htc]), exceptBind_ok]
          dsimp only
          rw [if_pos (by linarith)]
        rw [hsub, exceptBind_error]
      · push_neg at hlt
        have hsub := Money.subtract_eval hv htv (by rw [hc, htc]) (by rw [hc]; rfl) hlt
        rw [hsub, exceptBind_ok]
        have hv' : (⟨acc.amount - t.amount.amount, acc.currency⟩ : Money).Valid :=
          ⟨show (0:ℚ) ≤ acc.amount - t.amount.amount by linarith,
           isTwoDecimal_sub hv.2.1 htv.2.1, hv.2.2⟩
        rcases ih _ hwf' hv' hc with herr | ⟨r, hr, hr0, hrsum⟩
        · left; exact herr
        · right
          refine ⟨r, hr, hr0, ?_⟩
          rw [hrsum, hfb, hfs]
          have hnotsd : (t.isSell || t.isDividend : Bool) = false := by
            simp [Transaction.isSell, Transaction.isDividend, htype]
          rw [hb, hnotsd]
          simp
          ring
    | sell =>
      have hb : t.isBuy = false := by simp [Transaction.isBuy, htype]
      have hs : t.isSell = true := by simp [Transaction.isSell, htype]
      rw [hb, hs]
      rw [if_neg (by simp), if_pos rfl]
      have hadd := Money.add_eval hv htv (by rw [hc, htc]) (by rw [hc]; rfl)
      rw [hadd, exceptBind_ok]
      have hv' : (⟨acc.amount + t.amount.amount, acc.currency⟩ : Money).Valid :=
        ⟨show (0:ℚ) ≤ acc.amount + t.amount.amount by
            have := hv.1; have := htv.1; linarith,
         isTwoDecimal_add hv.2.1 htv.2.1, hv.2.2⟩
      rcases ih _ hwf' hv' hc with herr | ⟨r, hr, hr0, hrsum⟩
      · left; exact herr
      · right
        refine ⟨r, hr, hr0, ?_⟩
        rw [hrsum, hfb, hfs]
        have hsd : (t.isSell || t.isDividend : Bool) = true := by simp [hs]
        rw [hb, hsd]
        simp
        ring
    | dividend =>
      have hb : t.isBuy = false := by simp [Transaction.isBuy, htype]
      have hs : t.isSell = false := by simp [Transaction.isSell, htype]
      have hd : t.isDividend = true := by simp [Transaction.isDividend, htype]
      rw [hb, hs, hd]
      rw [if_neg (by simp), if_neg (by simp), if_pos rfl]
      have hadd := Money.add_eval hv htv (by rw [hc, htc]) (by rw [hc]; rfl)
      rw [hadd, exceptBind_ok]
      have hv' : (⟨acc.amount + t.amount.amount, acc.currency⟩ : Money).Valid :=
        ⟨show (0:ℚ) ≤ acc.amount + t.amount.amount by
            have := hv.1; have := htv.1; linarith,
         isTwoDecimal_add hv.2.1 htv.2.1, hv.2.2⟩
      rcases ih _ hwf' hv' hc with herr | ⟨r, hr, hr0, hrsum⟩
      · left; exact herr
      · right
        refine ⟨r, hr, hr0, ?_⟩
        rw [hrsum, hfb, hfs]
        have hsd : (t.isSell || t.isDividend : Bool) = true := by simp [hd]
        rw [hb, hsd]
        simp
        ring

/-! ### Claim theorems -/

/-- C3: `calculatePortfolioMetrics` computes successRate as the percentage of
sell transactions whose price per share strictly exceeds that of their
matched buy — the first buy transaction of the same symbol with an earlier
timestamp, in list order — and zero when there are no sells. -/
theorem successRate_fraction_of_profitable_sells
    (isToday : Int → Bool) (transactions : List Transaction)
    (prices : String → Option Money) (m : PortfolioMetrics)
    (hwf : ∀ t ∈ transactions, t.WF)
    (h : calculatePortfolioMetrics isToday transactions prices = .ok m) :
    m.successRate =
      if 0 < (transactions.filter (fun t => t.isSell)).length then
        Percentage.ofNum
          ((((transactions.filter (fun t => t.isSell)).countP
              (specSuccessfulSell transactions) : ℚ) /
            ((transactions.filter (fun t => t.isSell)).length : ℚ)) * 100)
      else Percentage.zero := by
  have hwfsells : ∀ t ∈ transactions.filter (fun t => t.isSell), t.WF :=
    fun t ht => hwf t (List.mem_of_mem_filter ht)
  unfold calculatePortfolioMetrics at h
  dsimp only at h
  cases htv : computeTotalValue prices (calculatePositions transactions) Money.zero with
  | error e => rw [htv, exceptBind_error] at h; cases h
  | ok tv =>
    rw [htv, exceptBind_ok] at h
    cases hti : computeTotalInvested (transactions.filter fun t => t.isBuy) Money.zero with
    | error e => rw [hti, exceptBind_error] at h; cases h
    | ok ti =>
      rw [hti, exceptBind_ok] at h
      rw [countSuccessfulTrades_eval transactions hwf _ hwfsells 0, exceptBind_ok] at h
      cases hsub : tv.subtract ti with
      | error e => rw [hsub, exceptBind_error] at h; cases h
      | ok pnl =>
        rw [hsub, exceptBind_ok] at h
        cases hdp : calculateDailyPnL isToday transactions prices with
        | error e => rw [hdp, exceptBind_error] at h; cases h
        | ok dpl =>
          rw [hdp, exceptBind_ok, exceptPure] at h
          injection h with h'
          rw [← h']
          dsimp only
          by_cases hlen : 0 < (transactions.filter (fun t => t.isSell)).length
          · rw [if_pos hlen, if_pos hlen]
            norm_num
          · rw [if_neg hlen, if_neg hlen]

/-- Witness for C3 on the empty transaction list: no sells, successRate 0. -/
theorem successRate_fraction_witness :
    calculatePortfolioMetrics (fun _ => false) [] (fun _ => none) =
      .ok ⟨Money.zero, Money.zero, ⟨0, "USD"⟩, Percentage.zero, 0, Money.zero⟩ ∧
    (⟨Money.zero, Money.zero, ⟨0, "USD"⟩, Percentage.zero, 0, Money.zero⟩ :
        PortfolioMetrics).successRate = Percentage.zero := by
  have hzv : Money.zero.Valid :=
    ⟨le_refl 0, by norm_num [isTwoDecimal, Money.zero], by decide⟩
  have hsub : Money.zero.subtract Money.zero = .ok ⟨0, "USD"⟩ := by
    have h := Money.subtract_eval hzv hzv rfl rfl (le_refl _)
    rw [h]
    norm_num [Money.zero]
  have hmk : calculatePortfolioMetrics (fun _ => false) [] (fun _ => none) =
      .ok ⟨Money.zero, Money.zero, ⟨0, "USD"⟩, Percentage.zero, 0, Money.zero⟩ := by
    unfold calculatePortfolioMetrics
    dsimp only
    rw [show computeTotalValue (fun _ => none) (calculatePositions []) Money.zero =
      .ok Money.zero from rfl, exceptBind_ok]
    rw [show computeTotalInvested (List.filter (fun t => t.isBuy) []) Money.zero =
      .ok Money.zero from rfl, exceptBind_ok]
    rw [show countSuccessfulTrades (List.filter (fun t => t.isBuy) []) 0
      (List.filter (fun t => t.isSell) []) = .ok 0 from rfl, exceptBind_ok]
    rw [hsub, exceptBind_ok]
    rw [show calculateDailyPnL (fun _ => false) [] (fun _ => none) =
      .ok Money.zero from rfl, exceptBind_ok]
    rfl
  have hsr := successRate_fraction_of_profitable_sells (fun _ => false) [] (fun _ => none)
    ⟨Money.zero, Money.zero, ⟨0, "USD"⟩, Percentage.zero, 0, Money.zero⟩
    (by simp) hmk
  refine ⟨hmk, ?_⟩
  rw [hsr]
  simp

/-- C2 counterexample: target $99.80, current price $101.80.  The price is
2.004% above the target, i.e. outside the exact ±2% band the claim
describes, yet `checkAlerts` emits no alert: the code rounds the tolerance
`target.multiply(0.02)` to cents (1.996 → 2.00), giving the band
[97.80, 101.80] which contains the price. -/
theorem checkAlerts_exact_band_counterexample :
    ¬ specInsideExactBand (509/5) (499/5) ∧
    checkAlerts [⟨"ABC", true, some ⟨499/5, "USD"⟩⟩] [⟨"ABC", ⟨509/5, "USD"⟩⟩] = .ok [] := by
  constructor
  · unfold specInsideExactBand
    norm_num
  · have htrig := @shouldTriggerAlert_eval ⟨509/5, "USD"⟩ ⟨499/5, "USD"⟩
      ⟨by norm_num, by norm_num [isTwoDecimal], by decide⟩
      ⟨by norm_num, by norm_num [isTwoDecimal], by decide⟩ rfl rfl
    have hr2 : round2 ((499:ℚ)/5 * (2/100)) = 2 := by norm_num [round2_eq_intFloor]
    rw [hr2] at htrig
    have hd1 : (decide ((499:ℚ)/5 + 2 < 509/5) : Bool) = false := by
      simp only [decide_eq_false_iff_not]; norm_num
    have hd2 : (decide ((509:ℚ)/5 < 499/5 - 2) : Bool) = false := by
      simp only [decide_eq_false_iff_not]; norm_num
    rw [hd1, hd2] at htrig
    simp only [checkAlerts]
    rw [if_neg (by simp)]
    have hfind : findStockBySymbol "ABC" [⟨"ABC", ⟨509/5, "USD"⟩⟩] =
        some ⟨"ABC", ⟨509/5, "USD"⟩⟩ := rfl
    simp only [hfind]
    rw [htrig, exceptBind_ok]
    rw [if_neg (by simp)]

/-- C2 (amended): for a watch item with alerting enabled and a target price,
against a stock list in which its symbol is found, `checkAlerts` emits an
alert for the item exactly when the current price lies outside
target ± round2(2% of target) — the tolerance is rounded to the cent by
`Money.multiply` — typed `above_target` when the price is above the target
and `below_target` when below. -/
theorem checkAlerts_rounded_band (item : WatchItem) (rest : List WatchItem)
    (stocks : List Stock) (t : Money) (stock : Stock) (tailAlerts : List AlertInfo)
    (henabled : item.alertEnabled = true) (htp : item.targetPrice = some t)
    (hfind : findStockBySymbol item.symbol stocks = some stock)
    (ht : t.Valid) (htc : t.currency = "USD")
    (hp : stock.price.Valid) (hpc : stock.price.currency = "USD")
    (htail : checkAlerts rest stocks = .ok tailAlerts) :
    checkAlerts (item :: rest) stocks =
      .ok ((if t.amount + round2 (t.amount * (2/100)) < stock.price.amount ∨
              stock.price.amount < t.amount - round2 (t.amount * (2/100))
            then [⟨item, stock.price, t,
                   if t.amount < stock.price.amount then .above_target
                   else .below_target⟩]
            else []) ++ tailAlerts) :=
  checkAlerts_cons_eval item rest stocks t stock tailAlerts henabled htp hfind
    ht htc hp hpc htail

/-- Witness for C2: the spec's own examples.  Target $200: price $210 yields
an `above_target` alert, price $201 yields no alert. -/
theorem checkAlerts_rounded_band_witness :
    checkAlerts [⟨"AAPL", true, some ⟨200, "USD"⟩⟩] [⟨"AAPL", ⟨210, "USD"⟩⟩] =
      .ok [⟨⟨"AAPL", true, some ⟨200, "USD"⟩⟩, ⟨210, "USD"⟩, ⟨200, "USD"⟩, .above_target⟩] ∧
    checkAlerts [⟨"AAPL", true, some ⟨200, "USD"⟩⟩] [⟨"AAPL", ⟨201, "USD"⟩⟩] = .ok [] := by
  have hval200 : (⟨200, "USD"⟩ : Money).Valid :=
    ⟨by norm_num, by norm_num [isTwoDecimal], by decide⟩
  have hr2 : round2 ((200:ℚ) * (2/100)) = 4 := by norm_num [round2_eq_intFloor]
  constructor
  · have h := checkAlerts_rounded_band ⟨"AAPL", true, some ⟨200, "USD"⟩⟩ []
      [⟨"AAPL", ⟨210, "USD"⟩⟩] ⟨200, "USD"⟩ ⟨"AAPL", ⟨210, "USD"⟩⟩ []
      rfl rfl rfl hval200 rfl
      ⟨by norm_num, by norm_num [isTwoDecimal], by decide⟩ rfl rfl
    rw [h, hr2]
    rw [if_pos (by norm_num), if_pos (by norm_num)]
    rfl
  · have h := checkAlerts_rounded_band ⟨"AAPL", true, some ⟨200, "USD"⟩⟩ []
      [⟨"AAPL", ⟨201, "USD"⟩⟩] ⟨200, "USD"⟩ ⟨"AAPL", ⟨201, "USD"⟩⟩ []
      rfl rfl rfl hval200 rfl
      ⟨by norm_num, by norm_num [isTwoDecimal], by decide⟩ rfl rfl
    rw [h, hr2]
    rw [if_neg (by norm_num)]
    rfl

/-- C7: `calculatePortfolioMetrics` throws "Cannot subtract to negative
amount" instead of returning metrics whenever the total invested (sum of
buy amounts) exceeds the computed current total value (Money cannot go
negative in `totalValue.subtract(totalInvested)`), and likewise when
today's buy amounts exceed today's sell and dividend amounts (the
dailyPnL running total cannot go negative). -/
theorem metrics_throw_on_negative_pnl :
    (∀ (isToday : Int → Bool) (transactions : List Transaction)
       (prices : String → Option Money) (tv ti : Money),
      (∀ t ∈ transactions, t.WF) →
      computeTotalValue prices (calculatePositions transactions) Money.zero = .ok tv →
      computeTotalInvested (transactions.filter (fun t => t.isBuy)) Money.zero = .ok ti →
      tv.amount < ti.amount →
      calculatePortfolioMetrics isToday transactions prices =
        .error "Cannot subtract to negative amount") ∧
    (∀ (isToday : Int → Bool) (transactions : List Transaction)
       (prices : String → Option Money) (tv ti : Money),
      (∀ t ∈ transactions, t.WF) →
      computeTotalValue prices (calculatePositions transactions) Money.zero = .ok tv →
      computeTotalInvested (transactions.filter (fun t => t.isBuy)) Money.zero = .ok ti →
      ti.amount ≤ tv.amount →
      (((transactions.filter (fun t => isToday t.timestamp)).filter
          (fun t => t.isSell || t.isDividend)).map (fun t => t.amount.amount)).sum <
        (((transactions.filter (fun t => isToday t.timestamp)).filter
          (fun t => t.isBuy)).map (fun t => t.amount.amount)).sum →
      calculatePortfolioMetrics isToday transactions prices =
        .error "Cannot subtract to negative amount") := by
  have hz : Money.zero.Valid :=
    ⟨le_refl 0, by norm_num [isTwoDecimal, Money.zero], by decide⟩
  constructor
  · intro isToday transactions prices tv ti hwf htv hti hlt
    have hsells : ∀ t ∈ transactions.filter (fun t => t.isSell), t.WF :=
      fun t ht => hwf t (List.mem_of_mem_filter ht)
    obtain ⟨hvV, hvC⟩ := computeTotalValue_ok _ _ _ hz rfl htv
    obtain ⟨hiV, hiC⟩ := computeTotalInvested_ok _ _ _ hz rfl hti
    have hsub : tv.subtract ti = .error "Cannot subtract to negative amount" := by
      unfold Money.subtract Money.ensureSameCurrency
      rw [if_neg (by simp [hvC, hiC]), exceptBind_ok]
      dsimp only
      rw [if_pos (by linarith)]
    unfold calculatePortfolioMetrics
    dsimp only
    rw [htv, exceptBind_ok, hti, exceptBind_ok,
      countSuccessfulTrades_eval transactions hwf _ hsells 0, exceptBind_ok,
      hsub, exceptBind_error]
  · intro isToday transactions prices tv ti hwf htv hti hge hexceed
    have hsells : ∀ t ∈ transactions.filter (fun t => t.isSell), t.WF :=
      fun t ht => hwf t (List.mem_of_mem_filter ht)
    obtain ⟨hvV, hvC⟩ := computeTotalValue_ok _ _ _ hz rfl htv
    obtain ⟨hiV, hiC⟩ := computeTotalInvested_ok _ _ _ hz rfl hti
    have hsub := Money.subtract_eval hvV hiV (by rw [hvC, hiC]) (by rw [hvC]; rfl) hge
    have htod : ∀ t ∈ transactions.filter (fun t => isToday t.timestamp), t.WF :=
      fun t ht => hwf t (List.mem_of_mem_filter ht)
    rcases dailyPnLFold_spec (transactions.filter fun t => isToday t.timestamp)
        Money.zero htod hz rfl with herr | ⟨r, hr, hr0, hrsum⟩
    · unfold calculatePortfolioMetrics
      dsimp only
      rw [htv, exceptBind_ok, hti, exceptBind_ok,
        countSuccessfulTrades_eval transactions hwf _ hsells 0, exceptBind_ok,
        hsub, exceptBind_ok,
        show calculateDailyPnL isToday transactions prices =
          dailyPnLFold Money.zero (transactions.filter fun t => isToday t.timestamp)
          from rfl,
        herr, exceptBind_error]
    · exfalso
      have hz0 : Money.zero.amount = 0 := rfl
      rw [hz0] at hrsum
      linarith

/-- Witness for C7: one $100 buy of one share.  With no price data the
invested $100 exceeds the $0 total value (first conjunct); with the stock
priced at $200 the value is fine but the buy happened "today", so the
daily PnL fold goes negative (second conjunct).  Both throw. -/
theorem metrics_throw_on_negative_pnl_witness :
    calculatePortfolioMetrics (fun _ => false)
        [⟨1, 1, .buy, "A", ⟨100, "USD"⟩, some 1, 0⟩] (fun _ => none) =
      .error "Cannot subtract to negative amount" ∧
    calculatePortfolioMetrics (fun _ => true)
        [⟨1, 1, .buy, "A", ⟨100, "USD"⟩, some 1, 0⟩] (fun _ => some ⟨200, "USD"⟩) =
      .error "Cannot subtract to negative amount" := by
  have hz : Money.zero.Valid :=
    ⟨le_refl 0, by norm_num [isTwoDecimal, Money.zero], by decide⟩
  have h100v : (⟨100, "USD"⟩ : Money).Valid :=
    ⟨by norm_num, by norm_num [isTwoDecimal], by decide⟩
  have h200v : (⟨200, "USD"⟩ : Money).Valid :=
    ⟨by norm_num, by norm_num [isTwoDecimal], by decide⟩
  have hwf : ∀ t ∈ [(⟨1, 1, .buy, "A", ⟨100, "USD"⟩, some 1, 0⟩ : Transaction)], t.WF := by
    intro t ht
    rw [List.mem_singleton] at ht
    subst ht
    exact ⟨h100v, rfl, fun _ => by simp [sharesOk]⟩
  have hpos : calculatePositions [⟨1, 1, .buy, "A", ⟨100, "USD"⟩, some 1, 0⟩] =
      [("A", 0 + 1)] := by
    unfold calculatePositions calculatePositionsAux
    dsimp only
    rw [if_pos ⟨rfl, one_ne_zero⟩]
    rfl
  have hfil : List.filter (fun t => t.isBuy)
      [(⟨1, 1, .buy, "A", ⟨100, "USD"⟩, some 1, 0⟩ : Transaction)] =
      [⟨1, 1, .buy, "A", ⟨100, "USD"⟩, some 1, 0⟩] := rfl
  have hti : computeTotalInvested
      (List.filter (fun t => t.isBuy)
        [(⟨1, 1, .buy, "A", ⟨100, "USD"⟩, some 1, 0⟩ : Transaction)]) Money.zero =
      .ok ⟨0 + 100, "USD"⟩ := by
    rw [hfil]
    unfold computeTotalInvested
    rw [Money.add_eval hz h100v rfl rfl, exceptBind_ok]
    rfl
  constructor
  · refine metrics_throw_on_negative_pnl.1 _ _ _ Money.zero ⟨0 + 100, "USD"⟩ hwf ?_ hti ?_
    · rw [hpos]
      rfl
    · show Money.zero.amount < (0:ℚ) + 100
      norm_num [Money.zero]
  · have hmulv : (⟨round2 ((200:ℚ) * |0 + 1|), "USD"⟩ : Money).Valid :=
      ⟨round2_nonneg (by positivity), round2_twoDecimal _, by decide⟩
    have htv : computeTotalValue (fun _ => some ⟨200, "USD"⟩)
        (calculatePositions [⟨1, 1, .buy, "A", ⟨100, "USD"⟩, some 1, 0⟩]) Money.zero =
        .ok ⟨0 + round2 ((200:ℚ) * |0 + 1|), "USD"⟩ := by
      rw [hpos]
      unfold computeTotalValue
      dsimp only
      rw [if_pos (by norm_num)]
      rw [Money.multiply_eval h200v (abs_nonneg _) rfl, exceptBind_ok]
      rw [Money.add_eval hz hmulv rfl rfl, exceptBind_ok]
      rfl
    refine metrics_throw_on_negative_pnl.2 _ _ _
      ⟨0 + round2 ((200:ℚ) * |0 + 1|), "USD"⟩ ⟨0 + 100, "USD"⟩ hwf htv hti ?_ ?_
    · show (0:ℚ) + 100 ≤ 0 + round2 ((200:ℚ) * |0 + 1|)
      norm_num [round2_eq_intFloor]
    · have e1 : (decide (TransactionType.buy = TransactionType.sell)) = false := rfl
      have e2 : (decide (TransactionType.buy = TransactionType.dividend)) = false := rfl
      have e3 : (decide (TransactionType.buy = TransactionType.buy)) = true := rfl
      norm_num [Transaction.isSell, Transaction.isDividend, Transaction.isBuy,
        List.filter, e1, e2, e3]

/-- C10: `Portfolio.isDiversified` returns `true` exactly when
`activePositions ≥ 5`, and `false` when it is below 5. -/
theorem isDiversified_iff_activePositions_ge_five (p : Portfolio) :
    (p.isDiversified = true ↔ 5 ≤ p.activePositions) ∧
    (p.isDiversified = false ↔ p.activePositions < 5) := by
  unfold Portfolio.isDiversified
  constructor
  · simp [ge_iff_le]
  · simp [ge_iff_le]

/-- C8: constructing a `Percentage` from a (finite) value yields that value
rounded to 2 decimal places, and every operation (`add`, `subtract`,
`multiply`, `divide`, `abs`, `fromDecimal`, `fromString`) produces a
2-decimal value.  (The non-finite rejection has no rational counterpart:
every ℚ is finite.) -/
theorem percentage_rounding_invariant :
    (∀ v : ℚ, (Percentage.ofNum v).value = round2 v) ∧
    (∀ p o : Percentage, isTwoDecimal (p.add o).value ∧ isTwoDecimal (p.subtract o).value) ∧
    (∀ (p : Percentage) (f : ℚ), isTwoDecimal (p.multiply f).value) ∧
    (∀ (p : Percentage) (d : ℚ) (r : Percentage), p.divide d = .ok r → isTwoDecimal r.value) ∧
    (∀ p : Percentage, isTwoDecimal p.abs.value) ∧
    (∀ d : ℚ, isTwoDecimal (Percentage.fromDecimal d).value) ∧
    (∀ v : ℚ, isTwoDecimal (Percentage.fromString v).value) := by
  refine ⟨fun v => rfl,
    fun p o => ⟨round2_twoDecimal _, round2_twoDecimal _⟩,
    fun p f => round2_twoDecimal _, ?_,
    fun p => round2_twoDecimal _,
    fun d => round2_twoDecimal _,
    fun v => round2_twoDecimal _⟩
  intro p d r h
  unfold Percentage.divide at h
  split at h
  · exact absurd h (by simp)
  · injection h with h'
    subst h'
    exact round2_twoDecimal _

/-- Witness for C8 at concrete inputs. -/
theorem percentage_rounding_invariant_witness :
    (Percentage.ofNum (1/3)).value = round2 (1/3) ∧
    (Percentage.mk 1).divide 2 = .ok ⟨1/2⟩ ∧
    isTwoDecimal (Percentage.mk (1/2)).value := by
  have hdiv : (Percentage.mk 1).divide 2 = .ok ⟨1/2⟩ := by
    unfold Percentage.divide
    rw [if_neg (by norm_num)]
    norm_num [Percentage.ofNum, round2_eq_intFloor]
  exact ⟨percentage_rounding_invariant.1 (1/3), hdiv,
    percentage_rounding_invariant.2.2.2.1 ⟨1⟩ 2 ⟨1/2⟩ hdiv⟩

/-- C5: for valid moneys of the same currency, adding `x` and then
subtracting `x` yields a money equal to the original. -/
theorem money_add_then_subtract_cancels (m x : Money) (hm : m.Valid) (hx : x.Valid)
    (hc : m.currency = x.currency) (hu : strToUpper m.currency = m.currency) :
    ∃ s r : Money, m.add x = .ok s ∧ s.subtract x = .ok r ∧ r.equals m = true := by
  obtain ⟨hm0, hm2, hm3⟩ := hm
  obtain ⟨hx0, hx2, hx3⟩ := hx
  refine ⟨⟨m.amount + x.amount, m.currency⟩, m, ?_, ?_, ?_⟩
  · exact Money.add_eval ⟨hm0, hm2, hm3⟩ ⟨hx0, hx2, hx3⟩ hc hu
  · have hs : (⟨m.amount + x.amount, m.currency⟩ : Money).Valid :=
      ⟨show (0:ℚ) ≤ m.amount + x.amount by linarith, isTwoDecimal_add hm2 hx2, hm3⟩
    have h := Money.subtract_eval hs ⟨hx0, hx2, hx3⟩ hc hu
      (show x.amount ≤ m.amount + x.amount by linarith)
    rw [h]
    congr 1
    cases m with
    | mk a c => simp
  · simp [Money.equals]

/-- Witness for C5 at m = $17.25, x = $50. -/
theorem money_add_then_subtract_cancels_witness :
    (⟨1725/100, "USD"⟩ : Money).Valid ∧
    (∃ s r : Money, (⟨1725/100, "USD"⟩ : Money).add ⟨50, "USD"⟩ = .ok s ∧
      s.subtract ⟨50, "USD"⟩ = .ok r ∧ r.equals ⟨1725/100, "USD"⟩ = true) := by
  have hm : (⟨1725/100, "USD"⟩ : Money).Valid :=
    ⟨by norm_num, by norm_num [isTwoDecimal], by decide⟩
  exact ⟨hm, money_add_then_subtract_cancels _ _ hm
    ⟨by norm_num, by norm_num [isTwoDecimal], by decide⟩ rfl rfl⟩

/-- C1: whenever `getDailyReturnPercentage` returns a value, the performance
status is exactly the spec's threshold cascade applied to that daily return
and the portfolio's success rate. -/
theorem performanceStatus_follows_spec_cascade (p : Portfolio) (dr : Percentage)
    (h : p.getDailyReturnPercentage = .ok dr) :
    p.getPerformanceStatus = .ok (specPerformanceCascade dr.value p.successRate.value) := by
  unfold Portfolio.getPerformanceStatus specPerformanceCascade
  rw [h, exceptBind_ok]
  split_ifs <;> rfl

/-- Witness for C1: totalValue $102, dailyPnL $2 (2% return), success rate
85% — status "excellent". -/
theorem performanceStatus_follows_spec_cascade_witness :
    Portfolio.getDailyReturnPercentage ⟨1, 1, ⟨102, "USD"⟩, ⟨2, "USD"⟩, ⟨85⟩, 3⟩ = .ok ⟨2⟩ ∧
    Portfolio.getPerformanceStatus ⟨1, 1, ⟨102, "USD"⟩, ⟨2, "USD"⟩, ⟨85⟩, 3⟩ =
      .ok (specPerformanceCascade (2 : ℚ) (85 : ℚ)) ∧
    specPerformanceCascade (2 : ℚ) (85 : ℚ) = .excellent := by
  have hsub : (⟨102, "USD"⟩ : Money).subtract ⟨2, "USD"⟩ = .ok ⟨100, "USD"⟩ := by
    have h := Money.subtract_eval (m := ⟨102, "USD"⟩) (o := ⟨2, "USD"⟩)
      ⟨by norm_num, by norm_num [isTwoDecimal], by decide⟩
      ⟨by norm_num, by norm_num [isTwoDecimal], by decide⟩ rfl rfl (by norm_num)
    rw [h]
    norm_num
  have hdr : Portfolio.getDailyReturnPercentage ⟨1, 1, ⟨102, "USD"⟩, ⟨2, "USD"⟩, ⟨85⟩, 3⟩ =
      .ok ⟨2⟩ := by
    unfold Portfolio.getDailyReturnPercentage
    rw [if_neg (by norm_num)]
    show ((⟨102, "USD"⟩ : Money).subtract ⟨2, "USD"⟩ >>= _) = _
    rw [hsub, exceptBind_ok]
    rw [if_neg (by norm_num)]
    show Except.ok (Percentage.fromDecimal ((2 : ℚ) / 100)) = _
    unfold Percentage.fromDecimal Percentage.ofNum
    norm_num [round2_eq_intFloor]
  refine ⟨hdr, performanceStatus_follows_spec_cascade _ _ hdr, ?_⟩
  norm_num [specPerformanceCascade]

/-- C4 counterexample: with an 'AAPL' item already stored for user 1, adding
'aapl' again fails — but the observable error message is the use case's
wrapped "Failed to add to watchlist: Stock already in watchlist", not the
bare "Stock already in watchlist" the claim states (the `catch` block
re-throws with a prefix). -/
theorem addToWatchlist_wrapped_error_counterexample :
    (addToWatchlist 9 ⟨[(1, ⟨1, 1, "AAPL", 0, "", some 200, true⟩)], [(1, [1])], 2⟩
        1 ⟨"aapl", none, none, none⟩).1 =
      .error "Failed to add to watchlist: Stock already in watchlist" ∧
    "Failed to add to watchlist: Stock already in watchlist" ≠
      "Stock already in watchlist" := by
  exact ⟨rfl, by decide⟩

/-- C4 (amended): whenever the user's watchlist already holds an item whose
symbol matches the new symbol case-insensitively, `addToWatchlist` fails
with "Failed to add to watchlist: Stock already in watchlist" (the inner
"Stock already in watchlist" wrapped by the use case's catch block) and
the repository state is returned unchanged. -/
theorem addToWatchlist_duplicate_fails (now : Int) (st : RepoState) (userId : Int)
    (dto : CreateWatchlistItemDto) (item : WatchlistItemData)
    (h : getByUserIdAndSymbol st userId dto.symbol = some item) :
    addToWatchlist now st userId dto =
      (.error "Failed to add to watchlist: Stock already in watchlist", st) := by
  unfold addToWatchlist
  rw [h]
  rfl

/-- Witness for C4: stored symbol 'AAPL', request 'aapl' (case-insensitive
match), state unchanged. -/
theorem addToWatchlist_duplicate_fails_witness :
    getByUserIdAndSymbol ⟨[(1, ⟨1, 1, "AAPL", 0, "", some 200, true⟩)], [(1, [1])], 2⟩
        1 "aapl" = some ⟨1, 1, "AAPL", 0, "", some 200, true⟩ ∧
    addToWatchlist 7 ⟨[(1, ⟨1, 1, "AAPL", 0, "", some 200, true⟩)], [(1, [1])], 2⟩
        1 ⟨"aapl", some "notes", some 150, some true⟩ =
      (.error "Failed to add to watchlist: Stock already in watchlist",
       ⟨[(1, ⟨1, 1, "AAPL", 0, "", some 200, true⟩)], [(1, [1])], 2⟩) :=
  ⟨rfl, addToWatchlist_duplicate_fails 7 _ 1 ⟨"aapl", some "notes", some 150, some true⟩
    ⟨1, 1, "AAPL", 0, "", some 200, true⟩ rfl⟩

/-- C9 counterexample: data with raw successRate 100.004, which violates
successRate ∈ [0,100], is accepted — `validate` checks the value after
2-decimal rounding (100.004 rounds to 100), so construction does not throw. -/
theorem portfolio_accepts_out_of_range_successRate :
    (100 : ℚ) < 100 + 4/1000 ∧
    Portfolio.make ⟨1, 1, 100, 0, 100 + 4/1000, 0⟩ =
      .ok ⟨1, 1, ⟨100, "USD"⟩, ⟨0, "USD"⟩, ⟨100⟩, 0⟩ := by
  refine ⟨by norm_num, ?_⟩
  unfold Portfolio.make
  rw [Money.fromString_eval (by norm_num) (by norm_num [isTwoDecimal]), exceptBind_ok]
  rw [Money.fromString_eval (by norm_num) (by norm_num [isTwoDecimal]), exceptBind_ok]
  have hsr : Percentage.fromString (100 + 4/1000) = ⟨100⟩ := by
    unfold Percentage.fromString Percentage.ofNum
    norm_num [round2_eq_intFloor]
  rw [hsr]
  rw [if_neg (by norm_num), if_neg (by norm_num), if_neg (by norm_num),
    if_neg (by norm_num)]

/-- C9 (amended): every successfully constructed Portfolio satisfies
successRate ∈ [0,100], activePositions ≥ 0 and positive ids; construction
throws when id/userId is non-positive, activePositions is negative, or the
successRate *after 2-decimal rounding* lies outside [0,100] (a raw value
outside the range by less than half a cent rounds into range and is
accepted). -/
theorem portfolio_invariant_of_make :
    (∀ (d : PortfolioData) (p : Portfolio), Portfolio.make d = .ok p →
      0 ≤ p.successRate.value ∧ p.successRate.value ≤ 100 ∧ 0 ≤ p.activePositions ∧
        0 < p.id ∧ 0 < p.userId) ∧
    (∀ d : PortfolioData,
      (d.id ≤ 0 ∨ d.userId ≤ 0 ∨ d.activePositions < 0 ∨
        round2 d.successRate < 0 ∨ 100 < round2 d.successRate) →
      ∃ e, Portfolio.make d = .error e) := by
  constructor
  · intro d p h
    unfold Portfolio.make at h
    cases htv : Money.fromString d.totalValue with
    | error e => rw [htv, exceptBind_error] at h; exact absurd h (by simp)
    | ok tv =>
      rw [htv, exceptBind_ok] at h
      cases hdp : Money.fromString d.dailyPnL with
      | error e => rw [hdp, exceptBind_error] at h; exact absurd h (by simp)
      | ok dp =>
        rw [hdp, exceptBind_ok] at h
        dsimp only at h
        split_ifs at h with h1 h2 h3 h4
        all_goals injection h with h'
        subst h'
        push_neg at h1 h2 h3 h4
        refine ⟨h4.1, h4.2, ?_, ?_, ?_⟩ <;> dsimp only <;> omega
  · intro d hcond
    unfold Portfolio.make
    cases htv : Money.fromString d.totalValue with
    | error e => rw [exceptBind_error]; exact ⟨e, rfl⟩
    | ok tv =>
      rw [exceptBind_ok]
      cases hdp : Money.fromString d.dailyPnL with
      | error e => rw [exceptBind_error]; exact ⟨e, rfl⟩
      | ok dp =>
        rw [exceptBind_ok]
        dsimp only
        by_cases h1 : d.id ≤ 0
        · rw [if_pos h1]; exact ⟨_, rfl⟩
        · rw [if_neg h1]
          by_cases h2 : d.userId ≤ 0
          · rw [if_pos h2]; exact ⟨_, rfl⟩
          · rw [if_neg h2]
            by_cases h3 : d.activePositions < 0
            · rw [if_pos h3]; exact ⟨_, rfl⟩
            · rw [if_neg h3]
              rw [if_pos ?_]
              · exact ⟨_, rfl⟩
              · show (Percentage.fromString d.successRate).value < 0 ∨
                  (Percentage.fromString d.successRate).value > 100
                have hv : (Percentage.fromString d.successRate).value =
                    round2 d.successRate := rfl
                rw [hv]
                rcases hcond with h | h | h | h | h
                · exact absurd h h1
                · exact absurd h h2
                · exact absurd h h3
                · exact .inl h
                · exact .inr h

/-- Witness for C9 at concrete inputs: a valid portfolio and a rejected one
(negative activePositions). -/
theorem portfolio_invariant_of_make_witness :
    (0 ≤ (Percentage.mk (55 : ℚ)).value ∧ (Percentage.mk (55 : ℚ)).value ≤ 100 ∧
      (0 : ℤ) ≤ 4 ∧ (0 : ℤ) < 1 ∧ (0 : ℤ) < 2) ∧
    (∃ e, Portfolio.make ⟨1, 2, 100, 0, 55, -1⟩ = .error e) := by
  constructor
  · have hmk : Portfolio.make ⟨1, 2, 100, 0, 55, 4⟩ =
        .ok ⟨1, 2, ⟨100, "USD"⟩, ⟨0, "USD"⟩, ⟨55⟩, 4⟩ := by
      unfold Portfolio.make
      rw [Money.fromString_eval (by norm_num) (by norm_num [isTwoDecimal]), exceptBind_ok]
      rw [Money.fromString_eval (by norm_num) (by norm_num [isTwoDecimal]), exceptBind_ok]
      have hsr : Percentage.fromString (55 : ℚ) = ⟨55⟩ := by
        unfold Percentage.fromString Percentage.ofNum
        norm_num [round2_eq_intFloor]
      rw [hsr]
      rw [if_neg (by norm_num), if_neg (by norm_num), if_neg (by norm_num),
        if_neg (by norm_num)]
    exact portfolio_invariant_of_make.1 _ _ hmk
  · exact portfolio_invariant_of_make.2 ⟨1, 2, 100, 0, 55, -1⟩ (by norm_num)

/-- C6: every constructed `Money` has a non-negative 2-decimal amount and a
3-letter currency code; the constructor rejects negative amounts and
non-3-letter currencies; `subtract` fails rather than produce a negative
amount; `multiply` rejects negative factors; `divide` rejects divisors ≤ 0;
`add`/`subtract`/`isGreaterThan`/`isLessThan` fail on mismatched
currencies; and every operation preserves the invariant. -/
theorem money_invariant_and_guards :
    (∀ (a : ℚ) (c : String) (m : Money), Money.make a c = .ok m → m.Valid) ∧
    (∀ (a : ℚ) (c : String), (a < 0 ∨ c.length ≠ 3) → ∃ e, Money.make a c = .error e) ∧
    (∀ m o : Money, m.currency = o.currency → m.amount < o.amount →
      m.subtract o = .error "Cannot subtract to negative amount") ∧
    (∀ (m : Money) (f : ℚ), f < 0 →
      m.multiply f = .error "Cannot multiply by negative factor") ∧
    (∀ (m : Money) (d : ℚ), d ≤ 0 →
      m.divide d = .error "Cannot divide by zero or negative number") ∧
    (∀ m o : Money, m.currency ≠ o.currency →
      (∃ e, m.add o = .error e) ∧ (∃ e, m.subtract o = .error e) ∧
      (∃ e, m.isGreaterThan o = .error e) ∧ (∃ e, m.isLessThan o = .error e)) ∧
    (∀ m o r : Money, m.add o = .ok r → r.Valid) ∧
    (∀ m o r : Money, m.subtract o = .ok r → r.Valid) ∧
    (∀ (m : Money) (f : ℚ) (r : Money), m.multiply f = .ok r → r.Valid) ∧
    (∀ (m : Money) (d : ℚ) (r : Money), m.divide d = .ok r → r.Valid) := by
  refine ⟨fun a c m h => Money.make_valid h, ?_, ?_, ?_, ?_, ?_, ?_, ?_, ?_, ?_⟩
  · intro a c h
    unfold Money.make
    by_cases ha : a < 0
    · rw [if_pos ha]; exact ⟨_, rfl⟩
    · have hc : c.length ≠ 3 := h.resolve_left ha
      rw [if_neg ha, if_pos (Or.inr hc)]; exact ⟨_, rfl⟩
  · intro m o hc hlt
    unfold Money.subtract Money.ensureSameCurrency
    rw [if_neg (by simp [hc]), exceptBind_ok]
    dsimp only
    rw [if_pos (by linarith)]
  · intro m f hf
    unfold Money.multiply
    rw [if_pos hf]
  · intro m d hd
    unfold Money.divide
    rw [if_pos hd]
  · intro m o hne
    refine ⟨⟨"Currency mismatch: " ++ m.currency ++ " vs " ++ o.currency, ?_⟩,
      ⟨"Currency mismatch: " ++ m.currency ++ " vs " ++ o.currency, ?_⟩,
      ⟨"Currency mismatch: " ++ m.currency ++ " vs " ++ o.currency, ?_⟩,
      ⟨"Currency mismatch: " ++ m.currency ++ " vs " ++ o.currency, ?_⟩⟩
    · unfold Money.add Money.ensureSameCurrency
      rw [if_pos hne, exceptBind_error]
    · unfold Money.subtract Money.ensureSameCurrency
      rw [if_pos hne, exceptBind_error]
    · unfold Money.isGreaterThan Money.ensureSameCurrency
      rw [if_pos hne, exceptBind_error]
    · unfold Money.isLessThan Money.ensureSameCurrency
      rw [if_pos hne, exceptBind_error]
  · intro m o r h
    unfold Money.add Money.ensureSameCurrency at h
    by_cases hc : m.currency ≠ o.currency
    · rw [if_pos hc, exceptBind_error] at h; cases h
    · rw [if_neg hc, exceptBind_ok] at h; exact Money.make_valid h
  · intro m o r h
    unfold Money.subtract Money.ensureSameCurrency at h
    by_cases hc : m.currency ≠ o.currency
    · rw [if_pos hc, exceptBind_error] at h; cases h
    · rw [if_neg hc, exceptBind_ok] at h
      dsimp only at h
      by_cases hlt : m.amount - o.amount < 0
      · rw [if_pos hlt] at h; cases h
      · rw [if_neg hlt] at h; exact Money.make_valid h
  · intro m f r h
    unfold Money.multiply at h
    by_cases hf : f < 0
    · rw [if_pos hf] at h; cases h
    · rw [if_neg hf] at h; exact Money.make_valid h
  · intro m d r h
    unfold Money.divide at h
    by_cases hd : d ≤ 0
    · rw [if_pos hd] at h; cases h
    · rw [if_neg hd] at h; exact Money.make_valid h

/-- Witness for C6 at concrete inputs. -/
theorem money_invariant_and_guards_witness :
    (⟨5, "USD"⟩ : Money).Valid ∧
    (∃ e, Money.make (-1) "USD" = .error e) ∧
    (⟨5, "USD"⟩ : Money).subtract ⟨6, "USD"⟩ = .error "Cannot subtract to negative amount" ∧
    (⟨5, "USD"⟩ : Money).multiply (-2) = .error "Cannot multiply by negative factor" ∧
    (⟨5, "USD"⟩ : Money).divide 0 = .error "Cannot divide by zero or negative number" ∧
    (∃ e, (⟨5, "USD"⟩ : Money).add ⟨1, "EUR"⟩ = .error e) := by
  have hmk : Money.make 5 "USD" = .ok ⟨5, "USD"⟩ :=
    Money.fromString_eval (by norm_num) (by norm_num [isTwoDecimal])
  refine ⟨money_invariant_and_guards.1 5 "USD" _ hmk,
    money_invariant_and_guards.2.1 (-1) "USD" (Or.inl (by norm_num)),
    money_invariant_and_guards.2.2.1 ⟨5, "USD"⟩ ⟨6, "USD"⟩ rfl (by norm_num),
    money_invariant_and_guards.2.2.2.1 ⟨5, "USD"⟩ (-2) (by norm_num),
    money_invariant_and_guards.2.2.2.2.1 ⟨5, "USD"⟩ 0 (by norm_num),
    (money_invariant_and_guards.2.2.2.2.2.1 ⟨5, "USD"⟩ ⟨1, "EUR"⟩ (by decide)).1⟩

end FinDash
